import Mathlib

/-!
Shallow embedding of `src/main.cpp` (cpp-demo-lambdas).

The program is a sequence of demo routines built around one shape: a
do-while event loop that fetches an integer from the console
(`FetchValue`), hands it to a handler, and exits once the fetched value
equals the sentinel `0`.

Modelling conventions:
* `FetchValue` reads successive integers from the console.  We model the
  external value source as a `List Int`: the finite prefix of values the
  source supplies.  A loop returns `some result` when it reaches the
  sentinel within that prefix, and `none` when it exhausts the prefix
  without seeing `0` — i.e. the loop is still running (waiting on more
  input), which is how non-termination appears in this embedding.
* A handler's observable effect per invocation is the list of lines it
  prints; a whole loop's observable output is the per-iteration effects
  in order.  `RunEventLoop` is generic in the effect type `α` so that
  instantiating the handler with `fun n => n` recovers the exact sequence
  of invocation arguments.
* `GenerateRandomNumber() % 2` is modelled as an externally supplied
  `Bool` (`coinOdd`).
-/

namespace CppDemoLambdas

/-- `IntHandler1` (main.cpp:11-16): prints "Alert!" when the value exceeds
the hardcoded threshold 50; the result is the list of printed lines. -/
def IntHandler1 (n : Int) : List String :=
  if n > 50 then ["Alert!"] else []

/-- `IntHandler2` (main.cpp:18-20): prints the new value. -/
def IntHandler2 (n : Int) : List String :=
  ["New value: " ++ toString n]

/-- `RunEventLoop` (main.cpp:105-112): do { n = FetchValue(); handler(n); }
while (n != 0).  The input list models the successive results of
`FetchValue`; the result, when the loop terminates within the supplied
prefix, is the list of the handler's per-invocation effects in order. -/
def RunEventLoop {α : Type} (handler : Int → α) : List Int → Option (List α)
  | [] => none
  | n :: rest =>
    let r := handler n
    if n = 0 then some [r] else (RunEventLoop handler rest).map (fun rs => r :: rs)

/-- The flat printed output of `RunEventLoop` with a printing handler. -/
def RunEventLoopOut (handler : Int → List String) (input : List Int) : Option (List String) :=
  (RunEventLoop handler input).map List.flatten

/-- `HardcodedHandlerDemo` (main.cpp:36-44): the same do-while loop with the
threshold-50 alert logic inlined in the loop body. -/
def HardcodedHandlerDemo : List Int → Option (List String)
  | [] => none
  | n :: rest =>
    let out : List String := if n > 50 then ["Alert!"] else []
    if n = 0 then some out else (HardcodedHandlerDemo rest).map (fun outs => out ++ outs)

/-- The do-while loop inlined in `HandlerSetInRuntimeDemo` (main.cpp:51-55). -/
def HandlerSetInRuntimeDemo.loop (handler : Int → List String) : List Int → Option (List String)
  | [] => none
  | n :: rest =>
    let out := handler n
    if n = 0 then some out
    else (HandlerSetInRuntimeDemo.loop handler rest).map (fun outs => out ++ outs)

/-- `HandlerSetInRuntimeDemo` (main.cpp:47-56): picks `IntHandler1` or
`IntHandler2` depending on the parity of a random number, then runs the
inlined loop.  `coinOdd` models `GenerateRandomNumber() % 2 != 0`. -/
def HandlerSetInRuntimeDemo (coinOdd : Bool) (input : List Int) : Option (List String) :=
  HandlerSetInRuntimeDemo.loop (if coinOdd then IntHandler1 else IntHandler2) input

/-- `NewValueHandler` (main.cpp:65-82): a functor holding the alert
threshold fixed at construction. -/
structure NewValueHandler where
  alert_threshold_ : Int

/-- `NewValueHandler::operator()(int) const` (main.cpp:75-79).  State-passing
translation: the method receives the object state and returns the (possibly
updated) state together with the printed lines; being `const`, the body
assigns nothing to the state, so the returned state is the receiver. -/
def NewValueHandler.opCall (h : NewValueHandler) (value : Int) : NewValueHandler × List String :=
  (h, if value > h.alert_threshold_ then ["Alert!"] else [])

/-- Folding `operator()` over a list of values: the final handler state and
the concatenated printed output. -/
def NewValueHandler.runAll (h : NewValueHandler) : List Int → NewValueHandler × List String
  | [] => (h, [])
  | v :: vs =>
    let p := h.opCall v
    let q := p.1.runAll vs
    (q.1, p.2 ++ q.2)

/-- The do-while loop inlined in `FunctorDemo` (main.cpp:89-92), threading
the handler object's state through the iterations. -/
def FunctorDemo.loop (h : NewValueHandler) : List Int → Option (List String)
  | [] => none
  | n :: rest =>
    let p := h.opCall n
    if n = 0 then some p.2 else (FunctorDemo.loop p.1 rest).map (fun outs => p.2 ++ outs)

/-- `FunctorDemo` (main.cpp:85-93): `NewValueHandler handler(50)` driven by
the do-while loop. -/
def FunctorDemo (input : List Int) : Option (List String) :=
  FunctorDemo.loop ⟨50⟩ input

/-- `EventHandlerPassedAsAnArgumentDemo` (main.cpp:115-119): picks a handler
by the random parity and passes it to `RunEventLoop`. -/
def EventHandlerPassedAsAnArgumentDemo (coinOdd : Bool) (input : List Int) :
    Option (List String) :=
  RunEventLoopOut (if coinOdd then IntHandler1 else IntHandler2) input

/-- `EventHandlerIsLambdaDemo` (main.cpp:125-129): `RunEventLoop` applied to
a capture-free lambda printing the new value. -/
def EventHandlerIsLambdaDemo (input : List Int) : Option (List String) :=
  RunEventLoopOut (fun n => ["New value: " ++ toString n]) input

/-- The value-capturing lambda `[threshold]() { std::cout << threshold; }`
(main.cpp:164-166): it receives a copy of the captured variable and only
prints; the result is the printed output. -/
def LambdaDemo.lamCapThreshold (threshold : Int) : List String :=
  [toString threshold]

/-- The capture-all-by-value lambda `[=]() { std::cout << threshold << ", "
<< i; }` (main.cpp:170-172): copies of both variables, output only. -/
def LambdaDemo.lamCapAll (threshold i : Int) : List String :=
  [toString threshold ++ ", " ++ toString i]

/-- The reference-capturing lambda `[&i](){ i = 1; }` (main.cpp:176-178):
state-passing translation, returning the new value of the captured `i`. -/
def LambdaDemo.lamRefI (_i : Int) : Int :=
  1

/-- The capture-all-by-reference lambda `[&]() { i = 11; j = 22; }`
(main.cpp:183-186): returns the new values of `i` and `j`. -/
def LambdaDemo.lamRefAll (_i _j : Int) : Int × Int :=
  (11, 22)

/-- `LambdaDemo` (main.cpp:136-194), capture section (lines 161-186): the
caller's `(threshold, i)` after the two value-capturing lambdas have run.
Value capture copies, so invoking those lambdas only yields output. -/
def LambdaDemo.stateAfterValueCaptures : Int × Int :=
  let threshold : Int := 50
  let i : Int := 1
  let _out1 := LambdaDemo.lamCapThreshold threshold
  let _out2 := LambdaDemo.lamCapAll threshold i
  (threshold, i)

/-- `LambdaDemo`: the caller's `(threshold, i, j)` at the end of the
function, after the two reference-capturing lambdas have run. -/
def LambdaDemo.final : Int × Int × Int :=
  let s := LambdaDemo.stateAfterValueCaptures
  let i := LambdaDemo.lamRefI s.2
  let j : Int := 2
  let ij := LambdaDemo.lamRefAll i j
  (s.1, ij.1, ij.2)

/-- `Comparer::operator()` (main.cpp:196-200) and the equivalent lambda
predicate in `LambdaAsPredicateDemo` (main.cpp:226): `a > b`. -/
def Comparer (a b : Int) : Bool :=
  decide (a > b)

/-- `std::sort(v.begin(), v.end())`: a comparison sort with the natural
order.  `std::sort`'s postcondition is: the result is a permutation of the
input, sorted so that no earlier element compares greater than a later
one, i.e. non-decreasing; we model it by a verified comparison sort. -/
def sortAscending (v : List Int) : List Int :=
  List.insertionSort (· ≤ ·) v

/-- `std::sort(v.begin(), v.end(), Comparer())` (and the lambda variant):
sorted so that `Comparer b a` fails for consecutive `a, b`, i.e. each later
element is `≤` its predecessor; modelled by sorting with `(· ≥ ·)`. -/
def sortDescending (v : List Int) : List Int :=
  List.insertionSort (· ≥ ·) v

/-- `PredicateDemo` (main.cpp:202-214): sorts `[3,2,6,9,1,5]` ascending,
asserts the result, re-sorts descending with `Comparer`, asserts again;
`true` iff both in-code assertions hold. -/
def PredicateDemo : Bool :=
  let v := [(3 : Int), 2, 6, 9, 1, 5]
  let v_sorted_increasing := [(1 : Int), 2, 3, 5, 6, 9]
  let v_sorted_decreasing := [(9 : Int), 6, 5, 3, 2, 1]
  let v1 := sortAscending v
  let assert1 := v1 == v_sorted_increasing
  let v2 := sortDescending v1
  let assert2 := v2 == v_sorted_decreasing
  assert1 && assert2

/-- `LambdaAsPredicateDemo` (main.cpp:216-228): identical to
`PredicateDemo` but with the descending predicate written as a lambda. -/
def LambdaAsPredicateDemo : Bool :=
  let v := [(3 : Int), 2, 6, 9, 1, 5]
  let v_sorted_increasing := [(1 : Int), 2, 3, 5, 6, 9]
  let v_sorted_decreasing := [(9 : Int), 6, 5, 3, 2, 1]
  let v1 := sortAscending v
  let assert1 := v1 == v_sorted_increasing
  let v2 := sortDescending v1
  let assert2 := v2 == v_sorted_decreasing
  assert1 && assert2

/-- The external inputs `main` consumes: the value-source prefixes for each
interactive demo, and the parity of the random number drawn in the two
handler-selecting demos.  `main` takes no flags or environment variables;
these are its only external dependencies. -/
structure ProgramInput where
  hardcodedValues : List Int
  runtimeCoinOdd : Bool
  runtimeValues : List Int
  functorValues : List Int
  passedCoinOdd : Bool
  passedValues : List Int
  lambdaLoopValues : List Int

/-- `main` (main.cpp:230-250): runs the demo routines in sequence and
returns 0.  `some 0` = normal exit; `none` = a loop never reached its
sentinel within the supplied input (still running), or an in-code
assertion failed (abort). -/
def main (inp : ProgramInput) : Option Int :=
  (HardcodedHandlerDemo inp.hardcodedValues).bind fun _ =>
  (HandlerSetInRuntimeDemo inp.runtimeCoinOdd inp.runtimeValues).bind fun _ =>
  (FunctorDemo inp.functorValues).bind fun _ =>
  (EventHandlerPassedAsAnArgumentDemo inp.passedCoinOdd inp.passedValues).bind fun _ =>
  (EventHandlerIsLambdaDemo inp.lambdaLoopValues).bind fun _ =>
  let _ := LambdaDemo.final
  if PredicateDemo && LambdaAsPredicateDemo then some 0 else none

/-! ## Helper lemmas -/

theorem RunEventLoop_cons {α : Type} (H : Int → α) (n : Int) (rest : List Int) :
    RunEventLoop H (n :: rest) =
      if n = 0 then some [H n]
      else (RunEventLoop H rest).map (fun rs => H n :: rs) := rfl

theorem RunEventLoop_isSome_iff {α : Type} (H : Int → α) (input : List Int) :
    (RunEventLoop H input).isSome ↔ 0 ∈ input := by
  induction input with
  | nil => simp [RunEventLoop]
  | cons n rest ih =>
    rw [RunEventLoop_cons]
    by_cases h : n = 0
    · subst h; simp
    · cases hrec : RunEventLoop H rest with
      | none => simp [h, hrec, ← ih, Ne.symm h]
      | some l => simp [h, hrec, ← ih, Ne.symm h]

theorem RunEventLoop_eq_some {α : Type} (H : Int → α) :
    ∀ (input : List Int) (l : List α), RunEventLoop H input = some l →
      l = ((input.takeWhile fun n => decide (n ≠ 0)) ++ [0]).map H := by
  intro input
  induction input with
  | nil => intro l hl; simp [RunEventLoop] at hl
  | cons n rest ih =>
    intro l hl
    rw [RunEventLoop_cons] at hl
    by_cases h : n = 0
    · subst h
      rw [if_pos rfl] at hl
      simp only [Option.some.injEq] at hl
      simp [← hl, List.takeWhile]
    · rw [if_neg h] at hl
      obtain ⟨l', hl', rfl⟩ := Option.map_eq_some'.mp hl
      simp [List.takeWhile, h, ih l' hl']

theorem RunEventLoop_append_zero {α : Type} (H : Int → α) :
    ∀ W : List Int, 0 ∉ W → RunEventLoop H (W ++ [0]) = some ((W ++ [0]).map H) := by
  intro W
  induction W with
  | nil => intro _; simp [RunEventLoop]
  | cons n W ih =>
    intro h
    rw [List.mem_cons, not_or] at h
    have hn : n ≠ 0 := fun e => h.1 e.symm
    rw [List.cons_append, RunEventLoop_cons, if_neg hn, ih h.2]
    simp

theorem RunEventLoopOut_isSome_iff (H : Int → List String) (input : List Int) :
    (RunEventLoopOut H input).isSome ↔ 0 ∈ input := by
  rw [← RunEventLoop_isSome_iff H input]
  unfold RunEventLoopOut
  cases RunEventLoop H input <;> simp

theorem HandlerSetInRuntimeDemo.loop_eq (H : Int → List String) (input : List Int) :
    HandlerSetInRuntimeDemo.loop H input = RunEventLoopOut H input := by
  induction input with
  | nil => rfl
  | cons n rest ih =>
    rw [HandlerSetInRuntimeDemo.loop, RunEventLoopOut, RunEventLoop_cons]
    by_cases h : n = 0
    · simp [h]
    · rw [ih, RunEventLoopOut]
      cases RunEventLoop H rest <;> simp [h]

theorem HardcodedHandlerDemo_eq (input : List Int) :
    HardcodedHandlerDemo input = RunEventLoopOut IntHandler1 input := by
  rw [← HandlerSetInRuntimeDemo.loop_eq]
  induction input with
  | nil => rfl
  | cons n rest ih =>
    simp only [HardcodedHandlerDemo, HandlerSetInRuntimeDemo.loop, IntHandler1]
    rw [ih]

theorem NewValueHandler.opCall_fst (h : NewValueHandler) (v : Int) :
    (h.opCall v).1 = h := rfl

theorem NewValueHandler.runAll_fst (h : NewValueHandler) :
    ∀ vs : List Int, (h.runAll vs).1 = h := by
  intro vs
  induction vs with
  | nil => rfl
  | cons v vs ih => simpa [NewValueHandler.runAll, NewValueHandler.opCall] using ih

theorem FunctorDemo_eq (input : List Int) :
    FunctorDemo input = RunEventLoopOut IntHandler1 input := by
  unfold FunctorDemo
  rw [← HandlerSetInRuntimeDemo.loop_eq]
  induction input with
  | nil => rfl
  | cons n rest ih =>
    simp only [FunctorDemo.loop, HandlerSetInRuntimeDemo.loop, NewValueHandler.opCall,
      IntHandler1]
    rw [ih]

/-! ## Claim theorems -/

/-- C1: for every handler `H` and every value sequence `V = W ++ [0]` with a
single trailing sentinel (`0 ∉ W`), `RunEventLoop` invokes `H` exactly once
per element of `V`, in `V`'s order — the invocation trace is `V.map H`,
including the invocation on the terminating `0` — and terminates right
after that final invocation (the result is `some` of exactly that trace). -/
theorem event_loop_dispatches_each_value_once {α : Type} (H : Int → α)
    (W : List Int) (hW : 0 ∉ W) :
    RunEventLoop H (W ++ [0]) = some ((W ++ [0]).map H) :=
  RunEventLoop_append_zero H W hW

/-- Witness for C1 at `H = IntHandler1`, `W = [61, 10]`. -/
theorem event_loop_dispatches_each_value_once_witness :
    RunEventLoop IntHandler1 [61, 10, 0] = some [["Alert!"], [], []] :=
  (event_loop_dispatches_each_value_once IntHandler1 [61, 10] (by decide)).trans (by decide)

/-- C2: the event loop terminates iff the sentinel `0` occurs in the values
the source supplies, and on termination the handler has been invoked
exactly once per non-terminal value read (the `takeWhile (· ≠ 0)` prefix),
in reading order, followed by the invocation on the sentinel.  For an input
prefix with no `0` the loop is still running (`none`); a `0` guarantees
termination. -/
theorem event_loop_terminates_iff_sentinel {α : Type} (H : Int → α) (input : List Int) :
    ((RunEventLoop H input).isSome ↔ 0 ∈ input) ∧
      ∀ l, RunEventLoop H input = some l →
        l = ((input.takeWhile fun n => decide (n ≠ 0)) ++ [0]).map H :=
  ⟨RunEventLoop_isSome_iff H input, fun l hl => RunEventLoop_eq_some H input l hl⟩

/-- Witness for C2 at `H = IntHandler1`, `input = [61, 10, 0]`. -/
theorem event_loop_terminates_iff_sentinel_witness :
    [["Alert!"], [], []] =
      ((([61, 10, 0] : List Int).takeWhile fun n => decide (n ≠ 0)) ++ [0]).map IntHandler1 :=
  (event_loop_terminates_iff_sentinel IntHandler1 [61, 10, 0]).2 [["Alert!"], [], []]
    (by decide)

/-- C3: a threshold-50 handler (`IntHandler1`, or `NewValueHandler` built
with threshold 50) driven by the event loop over `[61, 0]` signals "Alert!"
exactly once — on 61 — and nothing on 0; over `[10, 0]` it signals no alert
for either value. -/
theorem threshold50_alert_behaviour :
    RunEventLoop IntHandler1 [61, 0] = some [["Alert!"], []] ∧
      RunEventLoop (fun n => ((⟨50⟩ : NewValueHandler).opCall n).2) [61, 0] =
        some [["Alert!"], []] ∧
      FunctorDemo [61, 0] = some ["Alert!"] ∧
      RunEventLoop IntHandler1 [10, 0] = some [[], []] ∧
      RunEventLoop (fun n => ((⟨50⟩ : NewValueHandler).opCall n).2) [10, 0] =
        some [[], []] ∧
      FunctorDemo [10, 0] = some [] := by
  decide

/-- C4: for every input list of integers, the ascending sort is
non-decreasing; re-sorting it with the inverse (greater-than, `Comparer`)
predicate is non-increasing and a permutation of the original; concretely,
`[3,2,6,9,1,5]` sorts ascending to `[1,2,3,5,6,9]` and then descending to
`[9,6,5,3,2,1]`, so the in-code assertions of both predicate demos hold. -/
theorem sorting_properties (v : List Int) :
    (sortAscending v).Sorted (· ≤ ·) ∧
      (sortDescending (sortAscending v)).Sorted (· ≥ ·) ∧
      (sortDescending (sortAscending v)).Perm v ∧
      (∀ a b : Int, Comparer a b = true ↔ b < a) ∧
      sortAscending [3, 2, 6, 9, 1, 5] = [1, 2, 3, 5, 6, 9] ∧
      sortDescending [1, 2, 3, 5, 6, 9] = [9, 6, 5, 3, 2, 1] ∧
      PredicateDemo = true ∧ LambdaAsPredicateDemo = true :=
  ⟨List.sorted_insertionSort _ _, List.sorted_insertionSort _ _,
    (List.perm_insertionSort _ _).trans (List.perm_insertionSort _ _),
    fun a b => by simp [Comparer], by decide, by decide, by decide, by decide⟩

/-- C5: the event-loop variants are observationally equivalent: for every
input sequence, `HardcodedHandlerDemo`, `FunctorDemo` (a threshold-50
`NewValueHandler`), and `RunEventLoop` applied to `IntHandler1` produce the
same output sequence, differing only in how the handler is bound. -/
theorem event_loop_variants_equivalent (input : List Int) :
    HardcodedHandlerDemo input = RunEventLoopOut IntHandler1 input ∧
      FunctorDemo input = RunEventLoopOut IntHandler1 input ∧
      HardcodedHandlerDemo input = FunctorDemo input :=
  ⟨HardcodedHandlerDemo_eq input, FunctorDemo_eq input,
    (HardcodedHandlerDemo_eq input).trans (FunctorDemo_eq input).symm⟩

/-- C6: mutations a handler performs on reference-captured state are
visible to the caller afterwards: at the end of `LambdaDemo`'s capture
section, the caller's `i` and `j` hold the values assigned inside the
capture-all-by-reference lambda (`i = 11`, `j = 22`). -/
theorem reference_capture_mutations_visible :
    LambdaDemo.final = (50, 11, 22) ∧
      (LambdaDemo.lamRefAll (LambdaDemo.lamRefI 1) 2 = (11, 22)) := by
  decide

/-- C7: the threshold of a `NewValueHandler` is immutable after
construction: no sequence of `operator()` invocations changes the handler
state, and every single invocation returns the receiver unchanged and
compares its argument against the constructor-stored
`alert_threshold_`. -/
theorem new_value_handler_threshold_immutable (h : NewValueHandler) (vs : List Int) :
    (h.runAll vs).1 = h ∧
      (h.runAll vs).1.alert_threshold_ = h.alert_threshold_ ∧
      ∀ v, h.opCall v = (h, if v > h.alert_threshold_ then ["Alert!"] else []) :=
  ⟨NewValueHandler.runAll_fst h vs, by rw [NewValueHandler.runAll_fst h vs],
    fun _ => rfl⟩

/-- C8: `main` runs the demo routines in sequence and returns exit code 0
once all complete; its only external dependencies are the value-source
prefixes and the random parities in `ProgramInput` (no flags, environment
variables, or persisted state appear in the model), and completion needs
exactly that each interactive loop's input contains the sentinel. -/
theorem main_returns_zero (inp : ProgramInput)
    (h1 : 0 ∈ inp.hardcodedValues) (h2 : 0 ∈ inp.runtimeValues)
    (h3 : 0 ∈ inp.functorValues) (h4 : 0 ∈ inp.passedValues)
    (h5 : 0 ∈ inp.lambdaLoopValues) :
    main inp = some 0 := by
  have e1 : (HardcodedHandlerDemo inp.hardcodedValues).isSome := by
    rw [HardcodedHandlerDemo_eq, RunEventLoopOut_isSome_iff]; exact h1
  have e2 : (HandlerSetInRuntimeDemo inp.runtimeCoinOdd inp.runtimeValues).isSome := by
    rw [HandlerSetInRuntimeDemo, HandlerSetInRuntimeDemo.loop_eq, RunEventLoopOut_isSome_iff]
    exact h2
  have e3 : (FunctorDemo inp.functorValues).isSome := by
    rw [FunctorDemo_eq, RunEventLoopOut_isSome_iff]; exact h3
  have e4 : (EventHandlerPassedAsAnArgumentDemo inp.passedCoinOdd inp.passedValues).isSome := by
    rw [EventHandlerPassedAsAnArgumentDemo, RunEventLoopOut_isSome_iff]; exact h4
  have e5 : (EventHandlerIsLambdaDemo inp.lambdaLoopValues).isSome := by
    rw [EventHandlerIsLambdaDemo, RunEventLoopOut_isSome_iff]; exact h5
  obtain ⟨o1, ho1⟩ := Option.isSome_iff_exists.mp e1
  obtain ⟨o2, ho2⟩ := Option.isSome_iff_exists.mp e2
  obtain ⟨o3, ho3⟩ := Option.isSome_iff_exists.mp e3
  obtain ⟨o4, ho4⟩ := Option.isSome_iff_exists.mp e4
  obtain ⟨o5, ho5⟩ := Option.isSome_iff_exists.mp e5
  unfold main
  rw [ho1, ho2, ho3, ho4, ho5]
  simp only [Option.some_bind]
  decide

/-- Witness for C8: every interactive demo is fed the single value `0`. -/
theorem main_returns_zero_witness :
    main ⟨[0], true, [0], [0], false, [0], [0]⟩ = some 0 :=
  main_returns_zero ⟨[0], true, [0], [0], false, [0], [0]⟩
    (by decide) (by decide) (by decide) (by decide) (by decide)

/-- C9: the alert comparison is strict: a threshold-`T` handler signals an
alert iff the value is strictly greater than `T`; a value equal to the
threshold signals nothing (shown for `NewValueHandler` with any threshold
`T` and for `IntHandler1` with its hardcoded threshold 50). -/
theorem alert_iff_strictly_greater (T v : Int) :
    (((⟨T⟩ : NewValueHandler).opCall v).2 = ["Alert!"] ↔ T < v) ∧
      ((⟨T⟩ : NewValueHandler).opCall T).2 = [] ∧
      (IntHandler1 v = ["Alert!"] ↔ 50 < v) ∧
      IntHandler1 50 = [] := by
  refine ⟨?_, ?_, ?_, ?_⟩
  · simp only [NewValueHandler.opCall, gt_iff_lt]
    by_cases h : T < v <;> simp [h]
  · simp [NewValueHandler.opCall]
  · simp only [IntHandler1, gt_iff_lt]
    by_cases h : (50 : Int) < v <;> simp [h]
  · simp [IntHandler1]

/-- C10: value-captured state is not modified in the caller's scope: after
the two value-capturing lambdas of `LambdaDemo` run, the caller's
`threshold` is still 50 and `i` is unchanged at 1 (the lambdas only read
their copies to produce output); `threshold` is still 50 even at the end,
after the by-reference lambdas have altered `i` and `j`. -/
theorem value_captures_do_not_mutate :
    LambdaDemo.stateAfterValueCaptures = (50, 1) ∧
      LambdaDemo.final.1 = 50 ∧
      LambdaDemo.lamCapThreshold 50 = ["50"] ∧
      LambdaDemo.lamCapAll 50 1 = ["50, 1"] := by
  decide

end CppDemoLambdas
